import Mathlib

/-
Verification development for the linkedin_automation repository.

Shallow embedding of the campaign orchestration engine:
  * utils/decorators.py      : the retry decorator (bounded re-attempts)
  * utils/helpers.py         : get_adjusted_sleep_range (adaptive pacing)
  * features/jobs.py         : form-field label resolution, profile augmentation,
                               and the job campaign loop
  * features/connections.py  : the connection campaign state machine, the
                               secondary-tab pool, and quota handling

Python integers are modelled as Int or Nat, Python strings as Lean String
values manipulated through their List Char data, Python dicts (which keep
insertion order and have unique keys) as association lists, and the Selenium
driver as an explicit record of window handles.  Exceptions are modelled with
explicit outcome values at the points where the source catches them.
-/

/-! ## Retry decorator (utils/decorators.py, retry) -/

/-- Result of running the retry wrapper: the wrapped function returned a value,
the last attempt's exception was re-raised, or the attempt loop was never
entered (the Python wrapper then implicitly returns None). -/
inductive RetryResult (ε α : Type) where
  | ok (a : α)
  | err (e : ε)
  | skipped
deriving DecidableEq

/-- Embedding of the attempt loop of `retry` in utils/decorators.py.
The source keeps a counter `attempts` starting at 0 and loops
`while attempts < max_attempts`: each iteration invokes the operation, whose
behaviour is modelled by `op` applied to the number of invocations made so
far; on success the value is returned, on failure `attempts` is incremented
and, when `attempts >= max_attempts`, the exception is re-raised; otherwise
the loop sleeps and retries.  `calls` counts invocations of `op`. -/
def retryLoop {ε α : Type} (op : Nat → Except ε α) (maxAttempts attempts : Int)
    (calls : Nat) : RetryResult ε α × Nat :=
  if _h : attempts < maxAttempts then
    match op calls with
    | .ok a => (.ok a, calls + 1)
    | .error e =>
      if _h2 : maxAttempts ≤ attempts + 1 then (.err e, calls + 1)
      else retryLoop op maxAttempts (attempts + 1) (calls + 1)
  else (.skipped, calls)
termination_by (maxAttempts - attempts).toNat
decreasing_by omega

/-- Running the retry wrapper: the loop starts with `attempts = 0` and no
invocations made. -/
def retryExec {ε α : Type} (op : Nat → Except ε α) (maxAttempts : Int) :
    RetryResult ε α × Nat :=
  retryLoop op maxAttempts 0 0

/-- Fuel-indexed restatement of the attempt loop: with `attempts` attempts
used out of `maxAttempts`, the loop has `maxAttempts - attempts` iterations
left.  Proved equal to `retryLoop` below. -/
def retryFuel {ε α : Type} (op : Nat → Except ε α) : Nat → Nat → RetryResult ε α × Nat
  | 0, calls => (.skipped, calls)
  | fuel + 1, calls =>
    match op calls with
    | .ok a => (.ok a, calls + 1)
    | .error e => if fuel = 0 then (.err e, calls + 1) else retryFuel op fuel (calls + 1)

/-! ## Adaptive pacing (utils/helpers.py, get_adjusted_sleep_range) -/

/-- The reduction factor `min(0.7, (call_count - 50) / 200)` computed inside
get_adjusted_sleep_range, over exact rationals. -/
def reduction_factor (call_count : Int) : ℚ :=
  min (7 / 10 : ℚ) (((call_count : ℚ) - 50) / 200)

/-- Embedding of get_adjusted_sleep_range in utils/helpers.py: when more than
50 sleep calls have been made, both bounds of the range are scaled by
`1 - reduction_factor`; otherwise the range is returned unchanged. -/
def get_adjusted_sleep_range (min_max : ℚ × ℚ) (call_count : Int) : ℚ × ℚ :=
  if 50 < call_count then
    (min_max.1 * (1 - reduction_factor call_count),
     min_max.2 * (1 - reduction_factor call_count))
  else min_max

/-! ## String helpers shared by the form-filling embedding -/

/-- Check that `p` occurs at the very beginning of `s` (character lists). -/
def headMatch : List Char → List Char → Bool
  | [], _ => true
  | _ :: _, [] => false
  | a :: as, b :: bs => a == b && headMatch as bs

/-- Python's substring test `p in s` on character lists: `p` occurs
contiguously somewhere in `s` (the empty pattern always matches). -/
def listIsSubstr : List Char → List Char → Bool
  | p, [] => p.isEmpty
  | p, b :: rest => headMatch p (b :: rest) || listIsSubstr p rest

/-- Python's `pattern in label` on strings. -/
def substrOf (p s : String) : Bool := listIsSubstr p.data s.data

/-- Python's str.lower for the ASCII labels handled by the source. -/
def lowerStr (s : String) : String := String.mk (s.data.map Char.toLower)

def spaceChar : Char := Char.ofNat 32
def hyphenChar : Char := Char.ofNat 45
def underscoreChar : Char := Char.ofNat 95

/-- Python's str.strip: drop whitespace from both ends. -/
def trimChars (l : List Char) : List Char :=
  ((l.dropWhile Char.isWhitespace).reverse.dropWhile Char.isWhitespace).reverse

/-- Characters kept by the source's `re.sub` keeping only `[a-z0-9_]`. -/
def keepChar (c : Char) : Bool :=
  (97 ≤ c.toNat && c.toNat ≤ 122) || (48 ≤ c.toNat && c.toNat ≤ 57) || c.toNat == 95

/-! ## Profile record (config profile section as an insertion-ordered dict) -/

/-- Dict lookup on the profile record (keys are unique in a Python dict, so
first match is the binding). -/
def profileLookup : List (String × String) → String → Option String
  | [], _ => none
  | (k, v) :: rest, key => if k = key then some v else profileLookup rest key

/-- Python truthiness of `profile_data.get(key)`: the key is present and its
string value is non-empty. -/
def profileTruthy (profile : List (String × String)) (k : String) : Bool :=
  match profileLookup profile k with
  | some v => !(v == "")
  | none => false

/-! ## Text-input field resolution (features/jobs.py, _fill_form_inputs) -/

/-- The `field_mappings` dict literal of _fill_form_inputs, in source order. -/
def field_mappings : List (String × String) :=
  [("name", "full_name"),
   ("first name", "full_name"),
   ("last name", "full_name"),
   ("phone", "phone"),
   ("email", "email"),
   ("address", "location"),
   ("city", "location"),
   ("years of experience", "years_of_experience"),
   ("linkedin", "linkedin_profile"),
   ("website", "linkedin_profile"),
   ("salary", "expected_salary"),
   ("notice period", "notice_period"),
   ("university", "school"),
   ("college", "school"),
   ("institution", "school"),
   ("gpa", "gpa"),
   ("graduation date", "graduation_date"),
   ("company", "current_company"),
   ("job title", "current_job_title"),
   ("years", "total_years_experience")]

/-- The first for-loop of _fill_form_inputs: walk the rule table in order and
return the first profile key whose pattern occurs in the (already lowercased)
label and whose profile value is truthy. -/
def firstMappingMatch (profile : List (String × String)) (label : String) :
    List (String × String) → Option String
  | [] => none
  | (pat, key) :: rest =>
    if substrOf pat label && profileTruthy profile key then some key
    else firstMappingMatch profile label rest

/-- Replace underscores by spaces in a profile key, as
`profile_key.replace("_", " ")` does (single-character replacement is a
character-wise map). -/
def underscoreToSpace (k : String) : String :=
  String.mk (k.data.map fun c => if c == underscoreChar then spaceChar else c)

/-- The fallback loop of _fill_form_inputs: walk the profile record in order
and return the first key that, with separators replaced by spaces, occurs in
the label and has a truthy value. -/
def fallbackLoop (profile : List (String × String)) (label : String) :
    List (String × String) → Option String
  | [] => none
  | (k, _) :: rest =>
    if substrOf (underscoreToSpace k) label && profileTruthy profile k then some k
    else fallbackLoop profile label rest

/-- Field resolution for one text input in _fill_form_inputs: lowercase the
observed label, try the ordered rule table, then the loose profile-key
fallback. -/
def resolveInputField (profile : List (String × String)) (rawLabel : String) :
    Option String :=
  let label := lowerStr rawLabel
  match firstMappingMatch profile label field_mappings with
  | some k => some k
  | none => fallbackLoop profile label profile

/-! ## Profile augmentation (features/jobs.py, _add_missing_field_to_config) -/

/-- The key normalization of _add_missing_field_to_config: lowercase, strip,
replace spaces then hyphens by underscores, and drop every character outside
`[a-z0-9_]`. -/
def normalizeFieldKey (label : String) : String :=
  let l1 := label.data.map Char.toLower
  let l2 := trimChars l1
  let l3 := l2.map fun c => if c == spaceChar then underscoreChar else c
  let l4 := l3.map fun c => if c == hyphenChar then underscoreChar else c
  String.mk (l4.filter keepChar)

/-- Embedding of _add_missing_field_to_config acting on the in-memory profile
record: labels that are empty or shorter than 3 characters are ignored; the
normalized key is appended with an empty value only when it is not already
present (the file write mirrors the in-memory update and is not modelled
separately). -/
def add_missing_field_to_config (fieldLabel : String)
    (profile : List (String × String)) : List (String × String) :=
  if fieldLabel = "" ∨ fieldLabel.length < 3 then profile
  else
    let fieldKey := normalizeFieldKey fieldLabel
    if (profileLookup profile fieldKey).isSome then profile
    else profile ++ [(fieldKey, "")]

/-! ## Connection campaign model (features/connections.py)

The driver is modelled by the fields of `ConnState`: the handle of the
focused window, the recorded main window, and the list of open secondary
tabs.  Each secondary tab carries the outcome that connect_in_profile_tab
will have when the tab is drained (send succeeds, send fails, or the attempt
raises an exception that process_opened_tabs catches).  Each button found on
a results page carries the environment of its processing: whether its text
is Connect or Follow, whether the send / link-extraction succeeds, and the
eventual outcome of the tab it opens. -/

/-- Outcome of connect_in_profile_tab when a secondary tab is drained. -/
inductive TabOutcome where
  | success
  | fail
  | raiseExc
deriving DecidableEq

/-- A Connect/Follow button found on a results page, with the environment of
its processing baked in: for Connect, whether send_connection_request
succeeds; for Follow, whether the profile-link extraction succeeds and the
eventual drain outcome of the opened tab.  `other` covers buttons whose text
is neither (the loop ignores them) and buttons whose processing raises an
exception that the loop catches and skips. -/
inductive ConnButton where
  | connect (sendOk : Bool)
  | follow (linkOk : Bool) (outcome : TabOutcome)
  | other
deriving DecidableEq

/-- State of the ConnectionManager plus the driver's window bookkeeping.
`current` is the focused window handle, `mainWindow` the stored
self.main_window (None until first set), `tabs` the open secondary tabs with
their drain outcomes, `nextHandle` the next fresh window handle. -/
structure ConnState where
  current : Nat
  mainWindow : Option Nat
  tabs : List (Nat × TabOutcome)
  nextHandle : Nat
  connectionCount : Nat
  maxConnections : Nat
deriving DecidableEq

/-- The `if not self.main_window: self.main_window = current` step used by
process_connection_buttons and process_opened_tabs. -/
def setMainIfUnset (s : ConnState) : ConnState :=
  match s.mainWindow with
  | none => { s with mainWindow := some s.current }
  | some _ => s

/-- Embedding of _open_profile_in_new_tab: on success the profile URL is
extracted, `window.open` adds a background tab without moving focus, and the
driver explicitly switches back to the tab that was current; on any failure
the exception is caught and False is returned with the state unchanged. -/
def open_profile_in_new_tab (s : ConnState) (linkOk : Bool) (outcome : TabOutcome) :
    Bool × ConnState :=
  if linkOk then
    let currentTab := s.current
    let s1 := { s with tabs := s.tabs ++ [(s.nextHandle, outcome)],
                       nextHandle := s.nextHandle + 1 }
    (true, { s1 with current := currentTab })
  else (false, s)

/-- Embedding of connect_in_profile_tab: on a successful send the connection
count is incremented — with no quota check — and True is returned; a failed
send returns False; `none` models the attempt raising an exception past the
retry wrapper. -/
def connect_in_profile_tab (outcome : TabOutcome) (s : ConnState) :
    Option Bool × ConnState :=
  match outcome with
  | .success => (some true, { s with connectionCount := s.connectionCount + 1 })
  | .fail => (some false, s)
  | .raiseExc => (none, s)

/-- The per-tab loop of process_opened_tabs: switch into each tab, attempt
connect_in_profile_tab (exceptions are caught by the per-tab handler), and
close the tab (closed tabs are dropped wholesale by the caller below). -/
def processTabsList (s : ConnState) : List (Nat × TabOutcome) → ConnState
  | [] => s
  | (h, oc) :: rest =>
    let s1 := { s with current := h }
    processTabsList (connect_in_profile_tab oc s1).2 rest

/-- Embedding of process_opened_tabs: record the main window if unset, drain
every tab other than the main window, then switch back to the main window;
returns the number of connections made during the drain. -/
def process_opened_tabs (s : ConnState) : Nat × ConnState :=
  let initialCount := s.connectionCount
  let s0 := setMainIfUnset s
  let m := s0.mainWindow.getD s0.current
  let s1 := processTabsList s0 s0.tabs
  let s2 := { s1 with current := m, tabs := [] }
  (s2.connectionCount - initialCount, s2)

/-- The per-button loop of process_connection_buttons: before each button the
quota is checked (`0 < max_connections <= connection_count` stops processing
and returns False); a Follow button opens a background tab, a Connect button
whose send succeeds increments the count; exceptions are caught and the loop
continues. -/
def processButtonsLoop (s : ConnState) : List ConnButton → Bool × ConnState
  | [] => (true, s)
  | b :: rest =>
    if 0 < s.maxConnections ∧ s.maxConnections ≤ s.connectionCount then (false, s)
    else
      processButtonsLoop
        (match b with
         | .connect sendOk =>
           if sendOk then { s with connectionCount := s.connectionCount + 1 } else s
         | .follow linkOk oc => (open_profile_in_new_tab s linkOk oc).2
         | .other => s) rest

/-- Embedding of process_connection_buttons: an empty button list returns
True immediately; otherwise the main window is recorded if unset and the
buttons are processed in order. -/
def process_connection_buttons (s : ConnState) (buttons : List ConnButton) :
    Bool × ConnState :=
  if buttons.isEmpty then (true, s)
  else processButtonsLoop (setMainIfUnset s) buttons

/-- Why the campaign loop of run_connection_campaign ended. -/
inductive ExitReason where
  | quotaReached
  | noMorePages
deriving DecidableEq

/-- The main loop of run_connection_campaign with find_and_process_buttons
inlined.  The remaining result pages are carried as a list whose head is the
current page; go_to_next_page succeeds exactly when another page remains.
One iteration: find_and_process_buttons on the current page — if the page
has no buttons (also after the longer-wait retry, which in this deterministic
model finds the same page) it directly calls go_to_next_page and returns its
result; otherwise it processes the buttons.  A False return breaks the loop.
Then tabs are drained when `max_tabs` is reached, and go_to_next_page moves
to the next page, breaking the loop when none remains.  The returned list
collects the indices of the pages whose button list was actually processed. -/
def connCampaignLoop (maxTabs : Nat) (s : ConnState) (idx : Nat) :
    List (List ConnButton) → ConnState × ExitReason × List Nat
  | [] => (s, .noMorePages, [])
  | page :: rest =>
    if page.isEmpty then
      match rest with
      | [] => (s, .noMorePages, [])
      | _ :: rest2 =>
        let s1 := if maxTabs ≤ s.tabs.length then (process_opened_tabs s).2 else s
        match rest2 with
        | [] => (s1, .noMorePages, [])
        | _ :: _ => connCampaignLoop maxTabs s1 (idx + 2) rest2
    else
      let pr := process_connection_buttons s page
      if pr.1 then
        let s2 := if maxTabs ≤ pr.2.tabs.length then (process_opened_tabs pr.2).2 else pr.2
        match rest with
        | [] => (s2, .noMorePages, [idx])
        | _ :: _ =>
          let r := connCampaignLoop maxTabs s2 (idx + 1) rest
          (r.1, r.2.1, idx :: r.2.2)
      else (pr.2, .quotaReached, [idx])

/-- Embedding of run_connection_campaign: store the main window, run the
loop over the result pages, then — in the finally block — process any
remaining open tabs and switch back to the main window.  Returns the final
state, the loop's exit reason, and the processed page indices. -/
def run_connection_campaign (maxTabs maxConnections : Nat)
    (pages : List (List ConnButton)) : ConnState × ExitReason × List Nat :=
  let s0 : ConnState :=
    { current := 0, mainWindow := some 0, tabs := [], nextHandle := 1,
      connectionCount := 0, maxConnections := maxConnections }
  let r := connCampaignLoop maxTabs s0 0 pages
  let d := process_opened_tabs r.1
  let s2 := d.2
  let s3 := { s2 with current := s2.mainWindow.getD s2.current }
  (s3, r.2.1, r.2.2)

/-! ## Job campaign model (features/jobs.py, run_job_campaign)

A job card is modelled by whether applying to it succeeds; a page is a list
of cards. -/

/-- Why the job campaign loop ended. -/
inductive JobExit where
  | quotaReached
  | noMorePages
deriving DecidableEq

/-- The inner for-loop over job cards: before each card the quota is checked
(`max_applications > 0 and application_count >= max_applications` breaks);
apply_to_job increments the viewed counter for every card it clicks and the
application counter when the application succeeds. -/
def processJobCards (maxApps : Nat) : Nat → Nat → List Bool → Nat × Nat
  | count, viewed, [] => (count, viewed)
  | count, viewed, c :: rest =>
    if 0 < maxApps ∧ maxApps ≤ count then (count, viewed)
    else processJobCards maxApps (if c then count + 1 else count) (viewed + 1) rest

/-- The main loop of run_job_campaign: the quota is re-checked at the top of
each iteration; a page with no job cards advances to the next page and
continues; otherwise the cards are processed and the loop advances, ending
with noMorePages when go_to_next_page finds no further page. -/
def jobLoop (maxApps : Nat) : Nat → Nat → List (List Bool) → Nat × Nat × JobExit
  | count, viewed, [] =>
    if 0 < maxApps ∧ maxApps ≤ count then (count, viewed, .quotaReached)
    else (count, viewed, .noMorePages)
  | count, viewed, page :: rest =>
    if 0 < maxApps ∧ maxApps ≤ count then (count, viewed, .quotaReached)
    else if page.isEmpty then
      match rest with
      | [] => (count, viewed, .noMorePages)
      | _ :: _ => jobLoop maxApps count viewed rest
    else
      let cv := processJobCards maxApps count viewed page
      match rest with
      | [] => (cv.1, cv.2, .noMorePages)
      | _ :: _ => jobLoop maxApps cv.1 cv.2 rest

/-- Embedding of run_job_campaign's processing loop, starting with zero
applications and zero viewed jobs. -/
def run_job_campaign (maxApplications : Nat) (pages : List (List Bool)) :
    Nat × Nat × JobExit :=
  jobLoop maxApplications 0 0 pages

/-- Concrete operation used by witnesses: fails on its first invocation and
returns 7 on every later one. -/
def retryOpSucceedsSecond : Nat → Except Nat Nat :=
  fun i => if i = 0 then Except.error 0 else Except.ok 7

/-- Concrete profile record used by the C4 witness. -/
def yearsProfile : List (String × String) := [("years_of_experience", "5")]

/-- Concrete profile record used by the C5 witness. -/
def favProfile : List (String × String) := [("email", "user at example")]

/-- Concrete connection-manager state with an unlimited quota, used by the C6
witness. -/
def connStateZero : ConnState :=
  { current := 0, mainWindow := some 0, tabs := [], nextHandle := 1,
    connectionCount := 0, maxConnections := 0 }

/-! ## Lemmas about the retry loop -/

lemma retryLoop_eq_retryFuel {ε α : Type} (op : Nat → Except ε α) (maxAttempts : Int) :
    ∀ (n : Nat) (attempts : Int) (calls : Nat), 0 ≤ attempts →
      (maxAttempts - attempts).toNat = n →
      retryLoop op maxAttempts attempts calls = retryFuel op n calls := by
  intro n
  induction n with
  | zero =>
    intro attempts calls h0 hn
    have hnot : ¬ attempts < maxAttempts := by omega
    unfold retryLoop
    rw [dif_neg hnot]
    rfl
  | succ n ih =>
    intro attempts calls h0 hn
    have hlt : attempts < maxAttempts := by omega
    unfold retryLoop
    rw [dif_pos hlt]
    cases hop : op calls with
    | ok a => simp [retryFuel, hop]
    | error e =>
      cases n with
      | zero =>
        have h2 : maxAttempts ≤ attempts + 1 := by omega
        simp only [dif_pos h2]
        simp [retryFuel, hop]
      | succ m =>
        have h2 : ¬ maxAttempts ≤ attempts + 1 := by omega
        simp only [dif_neg h2]
        rw [ih (attempts + 1) (calls + 1) (by omega) (by omega)]
        simp [retryFuel, hop]

lemma retryFuel_calls_le {ε α : Type} (op : Nat → Except ε α) :
    ∀ (fuel calls : Nat), (retryFuel op fuel calls).2 ≤ calls + fuel := by
  intro fuel
  induction fuel with
  | zero => intro calls; simp [retryFuel]
  | succ fuel ih =>
    intro calls
    cases hop : op calls with
    | ok a => simp [retryFuel, hop]
    | error e =>
      by_cases hf : fuel = 0
      · subst hf
        simp [retryFuel, hop]
      · have hstep : retryFuel op (fuel + 1) calls = retryFuel op fuel (calls + 1) := by
          simp [retryFuel, hop, hf]
        rw [hstep]
        have := ih (calls + 1)
        omega

lemma retryFuel_success {ε α : Type} (op : Nat → Except ε α) :
    ∀ (fuel k calls : Nat) (a : α), 1 ≤ k → k ≤ fuel →
      (∀ i, i + 1 < k → ∃ e, op (calls + i) = Except.error e) →
      op (calls + (k - 1)) = Except.ok a →
      retryFuel op fuel calls = (.ok a, calls + k) := by
  intro fuel
  induction fuel with
  | zero =>
    intro k calls a hk hkf _ _
    exact absurd hkf (by omega)
  | succ fuel ih =>
    intro k calls a hk hkf hfail hok
    obtain ⟨m, rfl⟩ : ∃ m, k = m + 1 := ⟨k - 1, by omega⟩
    cases m with
    | zero =>
      have hok0 : op calls = Except.ok a := by simpa using hok
      simp [retryFuel, hok0]
    | succ m =>
      obtain ⟨e, he⟩ := hfail 0 (by omega)
      have he0 : op calls = Except.error e := by simpa using he
      have hfz : fuel ≠ 0 := by omega
      have hstep : retryFuel op (fuel + 1) calls = retryFuel op fuel (calls + 1) := by
        simp [retryFuel, he0, hfz]
      have hrec := ih (m + 1) (calls + 1) a (by omega) (by omega)
        (fun i hi => by
          obtain ⟨e2, he2⟩ := hfail (i + 1) (by omega)
          exact ⟨e2, by rw [show calls + 1 + i = calls + (i + 1) from by omega]; exact he2⟩)
        (by rw [show calls + 1 + (m + 1 - 1) = calls + (m + 1 + 1 - 1) from by omega]; exact hok)
      rw [hstep, hrec]
      have harith : calls + 1 + (m + 1) = calls + (m + 1 + 1) := by omega
      rw [harith]

lemma retryFuel_allfail {ε α : Type} (op : Nat → Except ε α) :
    ∀ (fuel calls : Nat), 1 ≤ fuel →
      (∀ i, i < fuel → ∃ e, op (calls + i) = Except.error e) →
      ∃ e, op (calls + (fuel - 1)) = Except.error e ∧
        retryFuel op fuel calls = (.err e, calls + fuel) := by
  intro fuel
  induction fuel with
  | zero => intro calls h; exact absurd h (by omega)
  | succ fuel ih =>
    intro calls _ hfail
    by_cases hf : fuel = 0
    · subst hf
      obtain ⟨e, he⟩ := hfail 0 (by omega)
      have he0 : op calls = Except.error e := by simpa using he
      exact ⟨e, by simpa using he0, by simp [retryFuel, he0]⟩
    · obtain ⟨e0, he0⟩ := hfail 0 (by omega)
      have he0c : op calls = Except.error e0 := by simpa using he0
      obtain ⟨e, he, hrun⟩ := ih (calls + 1) (by omega)
        (fun i hi => by
          obtain ⟨e2, he2⟩ := hfail (i + 1) (by omega)
          exact ⟨e2, by rw [show calls + 1 + i = calls + (i + 1) from by omega]; exact he2⟩)
      refine ⟨e, ?_, ?_⟩
      · rw [show calls + (fuel + 1 - 1) = calls + 1 + (fuel - 1) from by omega]
        exact he
      · have hstep : retryFuel op (fuel + 1) calls = retryFuel op fuel (calls + 1) := by
          simp [retryFuel, he0c, hf]
        rw [hstep, hrun]
        have harith : calls + 1 + fuel = calls + (fuel + 1) := by omega
        rw [harith]

/-! ## Claim theorems: retry -/

/-- C3: for every operation and every max_attempts N >= 1, the retry wrapper
invokes the operation at most N times; if the operation succeeds on attempt
k <= N (attempts before k failing), exactly k invocations occur, the value is
returned and no error is raised; if all N attempts fail, the failure of the
last attempt is re-raised. -/
theorem retry_policy_contract {ε α : Type} (op : Nat → Except ε α) (N : Int)
    (hN : 1 ≤ N) :
    (retryExec op N).2 ≤ N.toNat
    ∧ (∀ (k : Nat) (a : α), 1 ≤ k → (k : Int) ≤ N →
        (∀ i, i + 1 < k → ∃ e, op i = Except.error e) →
        op (k - 1) = Except.ok a → retryExec op N = (.ok a, k))
    ∧ ((∀ i, i < N.toNat → ∃ e, op i = Except.error e) →
        ∃ e, op (N.toNat - 1) = Except.error e ∧
          retryExec op N = (.err e, N.toNat)) := by
  have hbridge : retryExec op N = retryFuel op N.toNat 0 :=
    retryLoop_eq_retryFuel op N N.toNat 0 0 (le_refl 0) (by omega)
  refine ⟨?_, ?_, ?_⟩
  · rw [hbridge]
    have := retryFuel_calls_le op N.toNat 0
    simpa using this
  · intro k a hk hkN hfail hok
    rw [hbridge]
    have := retryFuel_success op N.toNat k 0 a hk (by omega)
      (by simpa using hfail) (by simpa using hok)
    simpa using this
  · intro hfail
    rw [hbridge]
    have := retryFuel_allfail op N.toNat 0 (by omega) (by simpa using hfail)
    simpa using this

/-- Witness for C3: with max_attempts = 2 and an operation that fails once
then succeeds, the wrapper returns the value after exactly 2 invocations. -/
theorem retry_policy_contract_witness :
    (1 : Int) ≤ 2 ∧ retryExec retryOpSucceedsSecond 2 = (.ok 7, 2) := by
  refine ⟨by decide, ?_⟩
  refine (retry_policy_contract retryOpSucceedsSecond 2 (by decide)).2.1 2 7
    (by decide) (by decide) (fun i hi => ⟨0, ?_⟩) (by rfl)
  have h0 : i = 0 := by omega
  subst h0
  rfl

/-- C10: the wrapper built with a non-positive max_attempts never enters the
attempt loop: the operation is invoked zero times and the Python wrapper
falls through, returning None (modelled by `RetryResult.skipped`). -/
theorem retry_nonpositive_attempts {ε α : Type} (op : Nat → Except ε α)
    (m : Int) (hm : m ≤ 0) : retryExec op m = (.skipped, 0) := by
  unfold retryExec retryLoop
  rw [dif_neg (by omega : ¬ (0 : Int) < m)]

/-- Witness for C10 at max_attempts = -1. -/
theorem retry_nonpositive_attempts_witness :
    (-1 : Int) ≤ 0 ∧ retryExec retryOpSucceedsSecond (-1) = (.skipped, 0) :=
  ⟨by decide, retry_nonpositive_attempts retryOpSucceedsSecond (-1) (by decide)⟩

/-! ## Lemmas about the profile association list -/

lemma profileLookup_append_of_some :
    ∀ (l l2 : List (String × String)) (k v : String),
      profileLookup l k = some v → profileLookup (l ++ l2) k = some v := by
  intro l
  induction l with
  | nil => intro l2 k v h; simp [profileLookup] at h
  | cons p t ih =>
    intro l2 k v h
    obtain ⟨a, b⟩ := p
    by_cases hab : a = k
    · simp [profileLookup, hab] at h ⊢
      exact h
    · simp only [profileLookup, if_neg hab, List.cons_append] at h ⊢
      exact ih l2 k v h

lemma profileLookup_append_self :
    ∀ (l : List (String × String)) (k v : String),
      profileLookup l k = none → profileLookup (l ++ [(k, v)]) k = some v := by
  intro l
  induction l with
  | nil => intro k v _; simp [profileLookup]
  | cons p t ih =>
    intro k v h
    obtain ⟨a, b⟩ := p
    by_cases hab : a = k
    · simp [profileLookup, hab] at h
    · simp only [profileLookup, if_neg hab, List.cons_append] at h ⊢
      exact ih k v h

/-! ## Claim theorems: field resolution and profile augmentation -/

lemma firstMappingMatch_eq_find (profile : List (String × String)) (label : String) :
    ∀ rules : List (String × String),
      firstMappingMatch profile label rules
        = (rules.find?
            fun pk => substrOf pk.1 label && profileTruthy profile pk.2).map Prod.snd := by
  intro rules
  induction rules with
  | nil => rfl
  | cons pk rest ih =>
    obtain ⟨p, k⟩ := pk
    cases h : substrOf p label && profileTruthy profile k with
    | true =>
      rw [List.find?_cons_of_pos _ (by simpa using h)]
      simp [firstMappingMatch, h]
    | false =>
      rw [List.find?_cons_of_neg _ (by simpa using h), ← ih]
      simp [firstMappingMatch, h]

/-- C4: the text-input resolution of _fill_form_inputs walks the ordered rule
table and returns the key of the first rule whose pattern occurs in the
lowercased label and whose profile value is non-empty; in particular the
label "Years of Experience" resolves to years_of_experience whenever that key
holds a non-empty value. -/
theorem resolve_input_field_contract (profile : List (String × String)) :
    (∀ label : String,
        firstMappingMatch profile label field_mappings
          = (field_mappings.find?
              fun pk => substrOf pk.1 label && profileTruthy profile pk.2).map Prod.snd)
    ∧ (∀ v : String, profileLookup profile "years_of_experience" = some v → v ≠ "" →
        resolveInputField profile "Years of Experience" = some "years_of_experience") := by
  refine ⟨fun label => firstMappingMatch_eq_find profile label field_mappings, ?_⟩
  intro v hl hv
  have hT : profileTruthy profile "years_of_experience" = true := by
    unfold profileTruthy
    rw [hl]
    simp [hv]
  have e1 : substrOf "name" "years of experience" = false := by decide
  have e2 : substrOf "first name" "years of experience" = false := by decide
  have e3 : substrOf "last name" "years of experience" = false := by decide
  have e4 : substrOf "phone" "years of experience" = false := by decide
  have e5 : substrOf "email" "years of experience" = false := by decide
  have e6 : substrOf "address" "years of experience" = false := by decide
  have e7 : substrOf "city" "years of experience" = false := by decide
  have e8 : substrOf "years of experience" "years of experience" = true := by decide
  have hlab : lowerStr "Years of Experience" = "years of experience" := by decide
  simp only [resolveInputField]
  rw [hlab]
  simp [field_mappings, firstMappingMatch, e1, e2, e3, e4, e5, e6, e7, e8, hT]

/-- Witness for C4 on a concrete profile with a non-empty
years_of_experience value. -/
theorem resolve_input_field_contract_witness :
    profileLookup yearsProfile "years_of_experience" = some "5"
    ∧ "5" ≠ ""
    ∧ resolveInputField yearsProfile "Years of Experience"
        = some "years_of_experience" :=
  ⟨rfl, by decide, (resolve_input_field_contract yearsProfile).2 "5" rfl (by decide)⟩

/-- C5: profile augmentation is idempotent: adding a label's normalized key
twice equals adding it once, an existing binding is never overwritten (lookups
of present keys are unchanged), and an eligible label whose normalized key is
absent appends exactly one entry with an empty value. -/
theorem add_missing_field_contract (label : String) (profile : List (String × String)) :
    add_missing_field_to_config label (add_missing_field_to_config label profile)
        = add_missing_field_to_config label profile
    ∧ (∀ k v, profileLookup profile k = some v →
        profileLookup (add_missing_field_to_config label profile) k = some v)
    ∧ (¬ (label = "" ∨ label.length < 3) →
        profileLookup profile (normalizeFieldKey label) = none →
        add_missing_field_to_config label profile
          = profile ++ [(normalizeFieldKey label, "")]) := by
  by_cases hg : label = "" ∨ label.length < 3
  · refine ⟨?_, ?_, fun hng _ => absurd hg hng⟩
    · simp [add_missing_field_to_config, hg]
    · intro k v h
      simpa [add_missing_field_to_config, hg] using h
  · cases hopt : profileLookup profile (normalizeFieldKey label) with
    | some v0 =>
      refine ⟨?_, ?_, ?_⟩
      · simp [add_missing_field_to_config, hg, hopt]
      · intro k v h
        simpa [add_missing_field_to_config, hg, hopt] using h
      · intro _ hnone
        simp at hnone
    | none =>
      have hres : add_missing_field_to_config label profile
          = profile ++ [(normalizeFieldKey label, "")] := by
        simp [add_missing_field_to_config, hg, hopt]
      refine ⟨?_, ?_, fun _ _ => hres⟩
      · rw [hres]
        have hlook : profileLookup (profile ++ [(normalizeFieldKey label, "")])
            (normalizeFieldKey label) = some "" :=
          profileLookup_append_self profile _ _ hopt
        simp [add_missing_field_to_config, hg, hlook]
      · intro k v h
        rw [hres]
        exact profileLookup_append_of_some profile _ k v h

/-- Witness for C5: the unmatched label "Favorite Color" appends exactly one
entry favorite_color with an empty value. -/
theorem add_missing_field_contract_witness :
    (¬ ("Favorite Color" = "" ∨ "Favorite Color".length < 3))
    ∧ add_missing_field_to_config "Favorite Color" favProfile
        = favProfile ++ [("favorite_color", "")] := by
  refine ⟨by decide, ?_⟩
  rw [(add_missing_field_contract "Favorite Color" favProfile).2.2 (by decide) (by rfl)]
  rfl

/-! ## Claim theorems: adaptive pacing -/

/-- C7: the adjusted range equals the base range for call counts up to 50;
above 50 both bounds are scaled by `1 - reduction_factor`, where the
reduction factor is positive, never exceeds 0.7, grows monotonically with
the call count and equals 0.7 from 250 on; consequently each adjusted bound
is at least 30 percent of the corresponding non-negative original bound. -/
theorem adjusted_sleep_range_contract (min_max : ℚ × ℚ) (c : Int) :
    (c ≤ 50 → get_adjusted_sleep_range min_max c = min_max)
    ∧ (50 < c →
        get_adjusted_sleep_range min_max c =
          (min_max.1 * (1 - reduction_factor c), min_max.2 * (1 - reduction_factor c))
        ∧ 0 < reduction_factor c)
    ∧ reduction_factor c ≤ 7 / 10
    ∧ (∀ c2 : Int, c ≤ c2 → reduction_factor c ≤ reduction_factor c2)
    ∧ (250 ≤ c → reduction_factor c = 7 / 10)
    ∧ (0 ≤ min_max.1 → 3 / 10 * min_max.1 ≤ (get_adjusted_sleep_range min_max c).1)
    ∧ (0 ≤ min_max.2 → 3 / 10 * min_max.2 ≤ (get_adjusted_sleep_range min_max c).2) := by
  have hfac : reduction_factor c ≤ 7 / 10 := min_le_left _ _
  have hbound : ∀ m : ℚ, 0 ≤ m → 3 / 10 * m ≤ m * (1 - reduction_factor c) := by
    intro m hm
    nlinarith [mul_nonneg hm (show (0 : ℚ) ≤ 7 / 10 - reduction_factor c by linarith)]
  refine ⟨?_, ?_, hfac, ?_, ?_, ?_, ?_⟩
  · intro h
    unfold get_adjusted_sleep_range
    rw [if_neg (by omega)]
  · intro h
    refine ⟨by unfold get_adjusted_sleep_range; rw [if_pos h], ?_⟩
    have hc : (50 : ℚ) < (c : ℚ) := by exact_mod_cast h
    exact lt_min (by norm_num) (div_pos (by linarith) (by norm_num))
  · intro c2 hcc
    have hc : (c : ℚ) ≤ (c2 : ℚ) := by exact_mod_cast hcc
    unfold reduction_factor
    refine min_le_min le_rfl ?_
    exact (div_le_div_iff_of_pos_right (by norm_num : (0 : ℚ) < 200)).mpr (by linarith)
  · intro h
    have hc : (250 : ℚ) ≤ (c : ℚ) := by exact_mod_cast h
    unfold reduction_factor
    rw [min_eq_left]
    rw [le_div_iff₀ (by norm_num : (0 : ℚ) < 200)]
    linarith
  · intro hm
    by_cases hc : 50 < c
    · unfold get_adjusted_sleep_range
      rw [if_pos hc]
      exact hbound _ hm
    · unfold get_adjusted_sleep_range
      rw [if_neg hc]
      linarith
  · intro hm
    by_cases hc : 50 < c
    · unfold get_adjusted_sleep_range
      rw [if_pos hc]
      exact hbound _ hm
    · unfold get_adjusted_sleep_range
      rw [if_neg hc]
      linarith

/-- Witness for C7: with base range (10, 20) and call count 100 the adjusted
lower bound is at least 30 percent of 10. -/
theorem adjusted_sleep_range_contract_witness :
    (0 : ℚ) ≤ (((10 : ℚ), (20 : ℚ)) : ℚ × ℚ).1
    ∧ 3 / 10 * (((10 : ℚ), (20 : ℚ)) : ℚ × ℚ).1
        ≤ (get_adjusted_sleep_range ((10 : ℚ), (20 : ℚ)) 100).1 :=
  ⟨by norm_num,
   (adjusted_sleep_range_contract ((10 : ℚ), (20 : ℚ)) 100).2.2.2.2.2.1 (by norm_num)⟩

/-! ## Lemmas about the connection model -/

lemma setMainIfUnset_maxConnections (s : ConnState) :
    (setMainIfUnset s).maxConnections = s.maxConnections := by
  cases hm : s.mainWindow <;> simp [setMainIfUnset, hm]

lemma processTabsList_mainWindow :
    ∀ (l : List (Nat × TabOutcome)) (s : ConnState),
      (processTabsList s l).mainWindow = s.mainWindow := by
  intro l
  induction l with
  | nil => intro s; rfl
  | cons p rest ih =>
    intro s
    obtain ⟨hdl, oc⟩ := p
    cases oc <;> simp [processTabsList, connect_in_profile_tab, ih]

lemma processTabsList_maxConnections :
    ∀ (l : List (Nat × TabOutcome)) (s : ConnState),
      (processTabsList s l).maxConnections = s.maxConnections := by
  intro l
  induction l with
  | nil => intro s; rfl
  | cons p rest ih =>
    intro s
    obtain ⟨hdl, oc⟩ := p
    cases oc <;> simp [processTabsList, connect_in_profile_tab, ih]

lemma process_opened_tabs_maxConnections (s : ConnState) :
    ((process_opened_tabs s).2).maxConnections = s.maxConnections := by
  cases hm : s.mainWindow <;>
    simp [process_opened_tabs, setMainIfUnset, hm, processTabsList_maxConnections]

lemma processButtonsLoop_maxConnections :
    ∀ (bs : List ConnButton) (s : ConnState),
      ((processButtonsLoop s bs).2).maxConnections = s.maxConnections := by
  intro bs
  induction bs with
  | nil => intro s; rfl
  | cons b rest ih =>
    intro s
    by_cases hq : 0 < s.maxConnections ∧ s.maxConnections ≤ s.connectionCount
    · simp [processButtonsLoop, hq]
    · cases b with
      | connect sendOk => cases sendOk <;> simp [processButtonsLoop, hq, ih]
      | follow linkOk oc =>
        cases linkOk <;> simp [processButtonsLoop, hq, ih, open_profile_in_new_tab]
      | other => simp [processButtonsLoop, hq, ih]

lemma processButtonsLoop_quota_zero :
    ∀ (bs : List ConnButton) (s : ConnState), s.maxConnections = 0 →
      (processButtonsLoop s bs).1 = true := by
  intro bs
  induction bs with
  | nil => intro s _; rfl
  | cons b rest ih =>
    intro s h
    have hq : ¬ (0 < s.maxConnections ∧ s.maxConnections ≤ s.connectionCount) := by
      rw [h]
      simp
    cases b with
    | connect sendOk =>
      cases sendOk with
      | true =>
        simp [processButtonsLoop, hq]
        exact ih _ (by simp [h])
      | false =>
        simp [processButtonsLoop, hq]
        exact ih _ h
    | follow linkOk oc =>
      cases linkOk with
      | true =>
        simp [processButtonsLoop, hq, open_profile_in_new_tab]
        exact ih _ (by simp [h])
      | false =>
        simp [processButtonsLoop, hq, open_profile_in_new_tab]
        exact ih _ h
    | other =>
      simp [processButtonsLoop, hq]
      exact ih _ h

lemma process_connection_buttons_maxConnections (s : ConnState) (bs : List ConnButton) :
    ((process_connection_buttons s bs).2).maxConnections = s.maxConnections := by
  cases heE : bs.isEmpty with
  | true => simp [process_connection_buttons, heE]
  | false =>
    simp [process_connection_buttons, heE, processButtonsLoop_maxConnections,
      setMainIfUnset_maxConnections]

lemma process_connection_buttons_quota_zero (s : ConnState) (bs : List ConnButton)
    (h : s.maxConnections = 0) : (process_connection_buttons s bs).1 = true := by
  cases heE : bs.isEmpty with
  | true => simp [process_connection_buttons, heE]
  | false =>
    simp [process_connection_buttons, heE]
    exact processButtonsLoop_quota_zero bs _ (by rw [setMainIfUnset_maxConnections]; exact h)

lemma connCampaignLoop_quota_zero (maxTabs : Nat) :
    ∀ (n : Nat) (pages : List (List ConnButton)), pages.length ≤ n →
      ∀ (s : ConnState) (idx : Nat), s.maxConnections = 0 →
        (connCampaignLoop maxTabs s idx pages).2.1 = ExitReason.noMorePages := by
  intro n
  induction n with
  | zero =>
    intro pages hlen s idx h
    cases pages with
    | nil => rfl
    | cons p rest => simp at hlen
  | succ n ih =>
    intro pages hlen s idx h
    cases pages with
    | nil => rfl
    | cons page rest =>
      rw [connCampaignLoop.eq_def]
      cases hpE : page.isEmpty with
      | true =>
        cases rest with
        | nil => simp [hpE]
        | cons p1 rest2 =>
          cases rest2 with
          | nil => simp [hpE]
          | cons p2 rest3 =>
            have hmax1 : (if maxTabs ≤ s.tabs.length
                then (process_opened_tabs s).2 else s).maxConnections = 0 := by
              split
              · rw [process_opened_tabs_maxConnections]; exact h
              · exact h
            simp only [hpE]
            simp
            exact ih (p2 :: rest3) (by simp at hlen ⊢; omega) _ (idx + 2) hmax1
      | false =>
        have hpr : (process_connection_buttons s page).1 = true :=
          process_connection_buttons_quota_zero s page h
        have hmax2 : (if maxTabs ≤ (process_connection_buttons s page).2.tabs.length
            then (process_opened_tabs (process_connection_buttons s page).2).2
            else (process_connection_buttons s page).2).maxConnections = 0 := by
          split
          · rw [process_opened_tabs_maxConnections,
              process_connection_buttons_maxConnections]
            exact h
          · rw [process_connection_buttons_maxConnections]
            exact h
        cases rest with
        | nil => simp [hpE, hpr]
        | cons p1 rest2 =>
          simp [hpE, hpr]
          exact ih (p1 :: rest2) (by simp at hlen ⊢; omega) _ (idx + 1) hmax2

lemma jobLoop_quota_zero :
    ∀ (pages : List (List Bool)) (count viewed : Nat),
      (jobLoop 0 count viewed pages).2.2 = JobExit.noMorePages := by
  intro pages
  induction pages with
  | nil => intro count viewed; simp [jobLoop]
  | cons page rest ih =>
    intro count viewed
    rw [jobLoop.eq_def]
    cases hpE : page.isEmpty with
    | true =>
      cases rest with
      | nil => simp [hpE]
      | cons p r =>
        simp [hpE]
        exact ih count viewed
    | false =>
      cases rest with
      | nil => simp [hpE]
      | cons p r =>
        simp [hpE]
        exact ih _ _

lemma connCampaignLoop_processed_range (maxTabs : Nat) :
    ∀ (pages : List (List ConnButton)), (∀ p ∈ pages, p.isEmpty = false) →
      ∀ (s : ConnState) (idx : Nat), s.maxConnections = 0 →
        (connCampaignLoop maxTabs s idx pages).2.2 = List.range' idx pages.length := by
  intro pages
  induction pages with
  | nil => intro _ s idx _; rfl
  | cons page rest ih =>
    intro hne s idx h
    have hpE : page.isEmpty = false := hne page (by simp)
    have hpr : (process_connection_buttons s page).1 = true :=
      process_connection_buttons_quota_zero s page h
    have hmax2 : (if maxTabs ≤ (process_connection_buttons s page).2.tabs.length
        then (process_opened_tabs (process_connection_buttons s page).2).2
        else (process_connection_buttons s page).2).maxConnections = 0 := by
      split
      · rw [process_opened_tabs_maxConnections,
          process_connection_buttons_maxConnections]
        exact h
      · rw [process_connection_buttons_maxConnections]
        exact h
    rw [connCampaignLoop.eq_def]
    cases rest with
    | nil => simp [hpE, hpr, List.range']
    | cons p1 rest2 =>
      simp [hpE, hpr]
      rw [ih (fun p hp => hne p (by simp [hp])) _ (idx + 1) hmax2]
      simp [List.range']

/-! ## Claim theorems: connection and job campaigns -/

/-- C1 evidence: running the campaign with quota limit 1 over a single page
holding a Follow button (whose profile-tab connect succeeds) and then a
Connect button (whose send succeeds) ends with 2 successful connections —
the drain of the opened tab increments the count past the limit because
connect_in_profile_tab performs no quota check. -/
theorem connection_quota_overrun_evidence :
    (run_connection_campaign 5 1
        [[ConnButton.follow true TabOutcome.success,
          ConnButton.connect true]]).1.connectionCount = 2
    ∧ (run_connection_campaign 5 1
        [[ConnButton.follow true TabOutcome.success,
          ConnButton.connect true]]).1.maxConnections = 1 :=
  ⟨rfl, rfl⟩

/-- C2: process_opened_tabs always ends focused on the main window with all
secondary tabs closed — for every state, hence for every list of open tabs
and every assignment of per-tab outcomes, including tabs whose handler
raises (`TabOutcome.raiseExc`). -/
theorem process_opened_tabs_restores_main (s : ConnState) :
    ((process_opened_tabs s).2).current = s.mainWindow.getD s.current
    ∧ ((process_opened_tabs s).2).mainWindow = some (s.mainWindow.getD s.current)
    ∧ ((process_opened_tabs s).2).tabs = [] := by
  cases hm : s.mainWindow with
  | none => simp [process_opened_tabs, setMainIfUnset, hm, processTabsList_mainWindow]
  | some w => simp [process_opened_tabs, setMainIfUnset, hm, processTabsList_mainWindow]

/-- C6: with quota limit 0 no upper bound is enforced: the connection
campaign and the job campaign always exit because no further page exists,
and process_connection_buttons never stops processing on account of the
quota. -/
theorem quota_zero_unlimited :
    (∀ (maxTabs : Nat) (pages : List (List ConnButton)),
        (run_connection_campaign maxTabs 0 pages).2.1 = ExitReason.noMorePages)
    ∧ (∀ pages : List (List Bool), (run_job_campaign 0 pages).2.2 = JobExit.noMorePages)
    ∧ (∀ (s : ConnState) (bs : List ConnButton), s.maxConnections = 0 →
        (process_connection_buttons s bs).1 = true) := by
  refine ⟨?_, ?_, ?_⟩
  · intro maxTabs pages
    have h := connCampaignLoop_quota_zero maxTabs pages.length pages le_rfl
      { current := 0, mainWindow := some 0, tabs := [], nextHandle := 1,
        connectionCount := 0, maxConnections := 0 } 0 rfl
    simpa [run_connection_campaign] using h
  · intro pages
    exact jobLoop_quota_zero pages 0 0
  · intro s bs h
    exact process_connection_buttons_quota_zero s bs h

/-- Witness for C6 at a concrete zero-quota state. -/
theorem quota_zero_unlimited_witness :
    connStateZero.maxConnections = 0
    ∧ (process_connection_buttons connStateZero [ConnButton.connect true]).1 = true :=
  ⟨rfl, quota_zero_unlimited.2.2 connStateZero [ConnButton.connect true] rfl⟩

/-- C8: opening a profile in a background tab never moves focus: the current
window handle after _open_profile_in_new_tab equals the one before, on the
success path and on every caught-exception path. -/
theorem open_profile_in_new_tab_keeps_focus (s : ConnState) (linkOk : Bool)
    (oc : TabOutcome) :
    ((open_profile_in_new_tab s linkOk oc).2).current = s.current := by
  cases linkOk <;> simp [open_profile_in_new_tab]

/-- C9 counterexample: with pages [empty, one target, one target] the engine
processes only page 2 — page 1, although it holds an actionable target, is
skipped, because find_and_process_buttons already advanced a page after the
empty discovery and the campaign loop advances again immediately. -/
theorem empty_page_skips_next_page_cex :
    (run_connection_campaign 5 0
        [[], [ConnButton.connect true], [ConnButton.connect true]]).2.2 = [2]
    ∧ 1 ∉ (run_connection_campaign 5 0
        [[], [ConnButton.connect true], [ConnButton.connect true]]).2.2
    ∧ (run_connection_campaign 5 0
        [[], [ConnButton.connect true], [ConnButton.connect true]]).1.connectionCount = 1 := by
  refine ⟨rfl, ?_, rfl⟩
  decide

/-- C9 amended: when every visited page has discoverable targets (and the
quota is unlimited, so no quota exit interferes), pages are processed
consecutively in navigation order with none skipped. -/
theorem pages_processed_in_order (maxTabs : Nat) (pages : List (List ConnButton))
    (h : ∀ p ∈ pages, p.isEmpty = false) :
    (run_connection_campaign maxTabs 0 pages).2.2 = List.range' 0 pages.length := by
  have hr := connCampaignLoop_processed_range maxTabs pages h
    { current := 0, mainWindow := some 0, tabs := [], nextHandle := 1,
      connectionCount := 0, maxConnections := 0 } 0 rfl
  simpa [run_connection_campaign] using hr

/-- Witness for C9's amended statement on two non-empty pages. -/
theorem pages_processed_in_order_witness :
    (∀ p ∈ [[ConnButton.connect true], [ConnButton.connect false]], p.isEmpty = false)
    ∧ (run_connection_campaign 5 0
        [[ConnButton.connect true], [ConnButton.connect false]]).2.2 = List.range' 0 2 := by
  refine ⟨by decide, ?_⟩
  have h := pages_processed_in_order 5
    [[ConnButton.connect true], [ConnButton.connect false]] (by decide)
  simpa using h
